import Mathlib

/-!
# CustomApplication: periodic WAVE beacon broadcast

A shallow embedding of `examples/CustomApplicationExample/custom-application.cc`.

The application object, the node it is installed on, the simulator's event
queue, the frames handed to the network device and the lines written by
`NS_LOG_UNCOND` are gathered in one explicit state, `World`; every member
function of the source becomes a function on that state.

Conventions.
* `Time` is the ns-3 time value counted in nanoseconds (the default resolution).
* Identifiers, sizes, sequence numbers and channel numbers are only stored and
  copied by the application, never computed with, so they are natural numbers.
* IEEE doubles (coordinates, signal, noise) are only copied; they are carried
  as their bit patterns.
* What a library call answers (the number taken from the random stream, the
  result of `SendX`,
  the result of `PeekHeader`) is an explicit argument of the function making
  the call.
* `NS_LOG_FUNCTION` is trace logging that is off unless the log component is
  enabled by the environment; only the unconditional `NS_LOG_UNCOND` output is
  modelled.
* Dereferencing a null `Ptr` is recorded as the outcome `nullDeref`.
* A time is held in a signed 64-bit integer. The sum of two times formed by the
  application itself (interval plus jitter, in `StartApplication`) is the 64-bit
  two's complement sum, `Time.plus`. The simulator's own clock arithmetic is not
  part of the application and is exact.
* The random draw is computed in exact rational arithmetic; the rounding of the
  `double` operations inside the random variable is not modelled.
-/

namespace ns3

/-- Simulation time, in nanoseconds. -/
abbrev Time := Int

/-- The ns-3 function `MilliSeconds (value)`. -/
def MilliSeconds (value : Int) : Time := value * 1000000

/-- The ns-3 function `MicroSeconds (uint64_t value)`. -/
def MicroSeconds (value : Nat) : Time := (value : Int) * 1000

/-- Implicit conversion of a non-negative `double` to `uint64_t` at the call
`MicroSeconds (rand->GetValue (50,200))`: the fraction is discarded. -/
def doubleToUint64 (d : Rat) : Nat := (Rat.floor d).toNat % 2 ^ 64

/-- The least value of a signed 64-bit integer. -/
def INT64_MIN : Int := -9223372036854775808

/-- The greatest value of a signed 64-bit integer. -/
def INT64_MAX : Int := 9223372036854775807

/-- The signed 64-bit integer congruent to `x` modulo 2^64. -/
def wrapInt64 (x : Int) : Int :=
  (x + 9223372036854775808) % 18446744073709551616 - 9223372036854775808

/-- The ns-3 `operator+` on two `Time` values: the sum of the two 64-bit counts,
in two's complement. -/
def Time.plus (a b : Time) : Time := wrapInt64 (a + b)

/-- The ns-3 function `UniformRandomVariable::GetValue (min, max)`, which returns
`min + u * (max - min)` for the next number `u` of the underlying stream; the
stream delivers numbers with 0 ≤ u < 1. -/
def UniformRandomVariable.GetValue (min max : Rat) (u : Rat) : Rat :=
  min + u * (max - min)

/-- An IEEE double that is only stored and copied, carried as its bit pattern. -/
structure Double where
  bits : Nat
deriving DecidableEq

/-- The ns-3 type `Vector` (three coordinates). -/
structure Vector3D where
  x : Double
  y : Double
  z : Double
deriving DecidableEq

/-- A 48-bit MAC address. -/
structure Mac48Address where
  value : Nat
deriving DecidableEq

/-- The address ff:ff:ff:ff:ff:ff returned by `Mac48Address::GetBroadcast ()`. -/
def Mac48Address.GetBroadcast : Mac48Address := ⟨0xffffffffffff⟩

/-- A generic `ns3::Address` (the sender handed to the receive callback). -/
structure Address where
  value : Nat
deriving DecidableEq

/-- A `WifiMode`, identified by its unique name. -/
structure WifiMode where
  name : String
deriving DecidableEq

/-- The control channel number `CCH` of the ns-3 wave module. -/
def CCH : Nat := 178

/-- The fields of `TxInfo` that `BroadcastInformation` assigns. -/
structure TxInfo where
  channelNumber : Nat
  priority : Nat
  txPowerLevel : Nat
  dataRate : WifiMode
deriving DecidableEq

/-- Modelled from the spec: `CustomDataTag` (custom-data-tag.h) is not among the
sources. It holds a node id, a position and a timestamp, with one setter and one
getter for each; the timestamp is set to `Simulator::Now ()` by the default
constructor (source comment in `BroadcastInformation`). -/
structure CustomDataTag where
  nodeId : Nat
  position : Vector3D
  timestamp : Time
deriving DecidableEq

/-- Modelled from the spec: default constructor of `CustomDataTag`, stamping the
current time. The initial id and position are overwritten before any use. -/
def CustomDataTag.construct (now : Time) : CustomDataTag :=
  { nodeId := 0, position := ⟨⟨0⟩, ⟨0⟩, ⟨0⟩⟩, timestamp := now }

def CustomDataTag.SetNodeId (tag : CustomDataTag) (id : Nat) : CustomDataTag :=
  { tag with nodeId := id }

def CustomDataTag.SetPosition (tag : CustomDataTag) (pos : Vector3D) : CustomDataTag :=
  { tag with position := pos }

def CustomDataTag.GetNodeId (tag : CustomDataTag) : Nat := tag.nodeId

def CustomDataTag.GetPosition (tag : CustomDataTag) : Vector3D := tag.position

def CustomDataTag.GetTimestamp (tag : CustomDataTag) : Time := tag.timestamp

/-- A packet as the application sees it: its size in bytes and the
`CustomDataTag` packet tags attached to it. -/
structure Packet where
  size : Nat
  tags : List CustomDataTag
deriving DecidableEq

/-- The call `Create <Packet> (size)`: a payload of `size` bytes and no tag. -/
def Packet.Create (size : Nat) : Packet := { size := size, tags := [] }

def Packet.GetSize (p : Packet) : Nat := p.size

def Packet.AddPacketTag (p : Packet) (tag : CustomDataTag) : Packet :=
  { p with tags := tag :: p.tags }

/-- The call `PeekPacketTag (tag)`: the attached tag, when there is one. -/
def Packet.PeekPacketTag (p : Packet) : Option CustomDataTag := p.tags.head?

/-- The fields of `WifiMacHeader` read by `PromiscRx`. -/
structure WifiMacHeader where
  addr1 : Mac48Address
  addr2 : Mac48Address
  sequenceNumber : Nat
deriving DecidableEq

def WifiMacHeader.GetAddr1 (hdr : WifiMacHeader) : Mac48Address := hdr.addr1

def WifiMacHeader.GetAddr2 (hdr : WifiMacHeader) : Mac48Address := hdr.addr2

def WifiMacHeader.GetSequenceNumber (hdr : WifiMacHeader) : Nat := hdr.sequenceNumber

/-- What `packet->PeekHeader (hdr)` answers: the number of bytes it deserialized
(zero when no header could be read) and the header it filled in. -/
structure PeekHeaderResult where
  bytes : Nat
  hdr : WifiMacHeader
deriving DecidableEq

structure WifiTxVector where
  mode : WifiMode
deriving DecidableEq

def WifiTxVector.GetMode (tx : WifiTxVector) : WifiMode := tx.mode

structure MpduInfo where
  kind : Nat
  mpduRefNumber : Nat
deriving DecidableEq

structure SignalNoiseDbm where
  signal : Double
  noise : Double
deriving DecidableEq

/-- A network device of the node: whether its instance type is `WaveNetDevice`,
and the address of its MAC entity for the control channel. -/
structure NetDevice where
  ifIndex : Nat
  isWave : Bool
  macCCH : Mac48Address
deriving DecidableEq

/-- The node: its id, its devices in index order, and the position reported by
its aggregated `MobilityModel` (`none` when no mobility model is aggregated). -/
structure Node where
  id : Nat
  devices : List NetDevice
  mobility : Option Vector3D
deriving DecidableEq

/-- The member functions that are posted to the simulator. -/
inductive Handler where
  | BroadcastInformation
  | StopApplication
deriving DecidableEq

/-- A pending simulator event: absolute firing time and the function to run. -/
structure Event where
  ts : Time
  handler : Handler
deriving DecidableEq

/-- One call of `WaveNetDevice::SendX`, with the time of the call, the device
called, the arguments, and the boolean the call returned. -/
structure SendRecord where
  time : Time
  via : NetDevice
  packet : Packet
  dest : Mac48Address
  protocol : Nat
  tx : TxInfo
  result : Bool
deriving DecidableEq

/-- One line written by `NS_LOG_UNCOND`, by the values streamed into it. -/
inductive LogLine where
  | receivePacket (nodeId : Nat) (sender : Address) (size : Nat)
  | receiveTag (nodeId : Nat) (position : Vector3D) (timestamp : Time) (delay : Time)
  | promiscRx (nodeId : Nat) (channelFreq : Nat) (mode : WifiMode)
      (signal : Double) (noise : Double) (size : Nat)
  | promiscFrom (source : Mac48Address) (sequenceNumber : Nat)
deriving DecidableEq

/-- The data members of `CustomApplication`. -/
structure CustomApplication where
  m_broadcast_time : Time
  m_packetSize : Nat
  m_waveDevice : Option NetDevice
deriving DecidableEq

/-- The application, its node and the services it calls. -/
structure World where
  now : Time
  node : Node
  app : CustomApplication
  events : List Event
  receiveCallbacks : List Nat
  sniffers : List Nat
  sent : List SendRecord
  log : List LogLine
deriving DecidableEq

/-- The reason given to `NS_FATAL_ERROR`. -/
inductive FatalError where
  | noWaveNetDevice
deriving DecidableEq

/-- How a call ends: it returns, it aborts the process through
`NS_FATAL_ERROR` (leaving the state it had reached), or it dereferences a null
pointer. -/
inductive Outcome (α : Type) where
  | done (a : α)
  | fatal (err : FatalError) (a : α)
  | nullDeref
deriving DecidableEq

/-- The two arms of the address test in `PromiscRx`. -/
inductive FrameClass where
  | AddressedToMe
  | Overheard
deriving DecidableEq

/-- The call `Simulator::Schedule (delay, handler, this)`: one more pending event,
due `delay` after the current time. The returned `EventId` is dropped by both
callers, so it is not represented. -/
def Simulator.Schedule (w : World) (delay : Time) (h : Handler) : World :=
  { w with events := w.events ++ [⟨w.now + delay, h⟩] }

/-- The pending event the simulator runs next: the smallest firing time, and
among equal times the one scheduled first. -/
def Simulator.earliest : List Event → Option Event
  | [] => none
  | e :: rest =>
    match Simulator.earliest rest with
    | none => some e
    | some m => if m.ts < e.ts then some m else some e

namespace CustomApplication

/-- The constructor: 100 ms interval, 1000 byte packets, no device yet. -/
def construct : CustomApplication :=
  { m_broadcast_time := MilliSeconds 100, m_packetSize := 1000, m_waveDevice := none }

/-- The function `SetBroadcastInterval`. -/
def SetBroadcastInterval (w : World) (interval : Time) : World :=
  { w with app := { w.app with m_broadcast_time := interval } }

/-- The device loop of `StartApplication`: at the first device whose instance
type is `WaveNetDevice`, keep it in `m_waveDevice`, install `ReceivePacket` as its
receive callback, connect `PromiscRx` to the `MonitorSnifferRx` trace of its PHY,
and leave the loop. -/
def scanDevices (w : World) : List NetDevice → World
  | [] => w
  | dev :: rest =>
    if dev.isWave then
      { w with
        app := { w.app with m_waveDevice := some dev }
        receiveCallbacks := w.receiveCallbacks ++ [dev.ifIndex]
        sniffers := w.sniffers ++ [dev.ifIndex] }
    else scanDevices w rest

/-- The function `StartApplication`; `u` is the number the random stream delivers
to `rand->GetValue (50,200)`. -/
def StartApplication (w : World) (u : Rat) : Outcome World :=
  let w1 := scanDevices w w.node.devices
  match w1.app.m_waveDevice with
  | some _ =>
    let random_offset :=
      MicroSeconds (doubleToUint64 (UniformRandomVariable.GetValue 50 200 u))
    .done (Simulator.Schedule w1 (Time.plus w1.app.m_broadcast_time random_offset)
      .BroadcastInformation)
  | none => .fatal .noWaveNetDevice w1

/-- The call `m_waveDevice->SendX (packet, dest, protocol, tx)`; `result` is the
boolean the device returns. -/
def SendX (w : World) (dev : NetDevice) (packet : Packet) (dest : Mac48Address)
    (protocol : Nat) (tx : TxInfo) (result : Bool) : Bool × World :=
  (result,
   { w with sent := w.sent ++ [
      { time := w.now, via := dev, packet := packet, dest := dest,
        protocol := protocol, tx := tx, result := result }] })

/-- The function `BroadcastInformation`; `sendResult` is what `SendX` returns. -/
def BroadcastInformation (w : World) (sendResult : Bool) : Outcome World :=
  let tx : TxInfo :=
    { channelNumber := CCH, priority := 7, txPowerLevel := 7,
      dataRate := ⟨"OfdmRate6MbpsBW10MHz"⟩ }
  let packet := Packet.Create w.app.m_packetSize
  let tag := CustomDataTag.construct w.now
  let tag := tag.SetNodeId w.node.id
  match w.node.mobility with
  | none => .nullDeref
  | some pos =>
    let tag := tag.SetPosition pos
    let packet := packet.AddPacketTag tag
    match w.app.m_waveDevice with
    | none => .nullDeref
    | some dev =>
      let w1 := (SendX w dev packet Mac48Address.GetBroadcast 0x88dc tx sendResult).2
      .done (Simulator.Schedule w1 w1.app.m_broadcast_time .BroadcastInformation)

/-- The stop hook. The class defines no `StopApplication`, so the call reaches
`Application::StopApplication`, whose body is empty. -/
def StopApplication (w : World) : Outcome World := .done w

/-- The function `PromiscRx`; `peek` is what `packet->PeekHeader (hdr)` answers.
Beside the new state, the arm of the address test that ran is returned (`none`
when the test was not reached). -/
def PromiscRx (w : World) (packet : Packet) (channelFreq : Nat) (tx : WifiTxVector)
    (_mpdu : MpduInfo) (sn : SignalNoiseDbm) (peek : PeekHeaderResult) :
    Outcome (World × Option FrameClass) :=
  let w1 := { w with log := w.log ++ [
    .promiscRx w.node.id channelFreq tx.GetMode sn.signal sn.noise packet.GetSize] }
  if peek.bytes ≠ 0 then
    let hdr := peek.hdr
    let destination := hdr.GetAddr1
    let source := hdr.GetAddr2
    match w1.app.m_waveDevice with
    | none => .nullDeref
    | some dev =>
      let myMacAddress := dev.macCCH
      if destination = Mac48Address.GetBroadcast ∨ destination = myMacAddress then
        .done ({ w1 with log := w1.log ++ [.promiscFrom source hdr.GetSequenceNumber] },
          some .AddressedToMe)
      else
        .done (w1, some .Overheard)
  else .done (w1, none)

end CustomApplication

/-- One turn of the simulator: take the next pending event out of the queue,
advance the clock to its time, run its handler. An empty queue ends the run. -/
def Simulator.step (w : World) (sendResult : Bool) : Outcome World :=
  match Simulator.earliest w.events with
  | none => .done w
  | some e =>
    let w1 := { w with now := e.ts, events := w.events.erase e }
    match e.handler with
    | .BroadcastInformation => CustomApplication.BroadcastInformation w1 sendResult
    | .StopApplication => CustomApplication.StopApplication w1

/-- Several turns of the simulator, one per element of `sendResults` (the answer
`SendX` gives in that turn, should the turn send). -/
def Simulator.run (w : World) : List Bool → Outcome World
  | [] => .done w
  | r :: rest =>
    match Simulator.step w r with
    | .done w1 => Simulator.run w1 rest
    | other => other

/-! ## Example states -/

/-- A node with id 7, a plain device at index 0, a WaveNetDevice at index 1, and a
mobility model. -/
def exampleNode : Node :=
  { id := 7
    devices := [⟨0, false, ⟨0x0a⟩⟩, ⟨1, true, ⟨0xa1⟩⟩]
    mobility := some ⟨⟨1⟩, ⟨2⟩, ⟨3⟩⟩ }

/-- A freshly constructed application installed on `exampleNode`, at time 0,
nothing scheduled, sent or logged yet. -/
def exampleWorld : World :=
  { now := 0, node := exampleNode, app := CustomApplication.construct, events := [],
    receiveCallbacks := [], sniffers := [], sent := [], log := [] }

/-- The same application on a node whose only device is not a WaveNetDevice. -/
def exampleWorldNoWave : World :=
  { exampleWorld with node := { exampleNode with devices := [⟨0, false, ⟨0x0a⟩⟩] } }

/-- The application of `exampleWorld` once started with the stream number 367/750,
which makes the random draw 50 + (367/750) * 150 = 123.4:
the WaveNetDevice is held and the first broadcast is due at 100.123 ms. -/
def exampleStarted : World :=
  { exampleWorld with
    app := { CustomApplication.construct with m_waveDevice := some ⟨1, true, ⟨0xa1⟩⟩ }
    events := [⟨100123000, .BroadcastInformation⟩]
    receiveCallbacks := [1]
    sniffers := [1] }

/-- A sniffed frame of 1038 bytes, and the reception data handed over with it. -/
def exampleFrame : Packet := { size := 1038, tags := [] }

def exampleTxVector : WifiTxVector := ⟨⟨"OfdmRate6MbpsBW10MHz"⟩⟩

def exampleMpdu : MpduInfo := ⟨0, 0⟩

def exampleSignalNoise : SignalNoiseDbm := ⟨⟨11⟩, ⟨12⟩⟩

/-- A header that was read (24 bytes), sent by b2 to the unicast address c3,
which is neither the broadcast address nor the address a1 of `exampleStarted`. -/
def exampleOverheardHeader : PeekHeaderResult :=
  { bytes := 24, hdr := { addr1 := ⟨0xc3⟩, addr2 := ⟨0xb2⟩, sequenceNumber := 42 } }

/-- A header that could not be read: no byte was deserialized. -/
def exampleUnreadHeader : PeekHeaderResult :=
  { bytes := 0, hdr := { addr1 := ⟨0⟩, addr2 := ⟨0⟩, sequenceNumber := 0 } }

/-! ## Auxiliary facts -/

theorem doubleToUint64_bounds (d : Rat) (h : 50 ≤ d ∧ d < 200) :
    50 ≤ doubleToUint64 d ∧ doubleToUint64 d < 200 := by
  have h1 : (50 : Int) ≤ Rat.floor d := Rat.le_floor.mpr (by exact_mod_cast h.1)
  have h2 : Rat.floor d < 200 := by
    by_contra hc
    have h3 : (200 : Int) ≤ Rat.floor d := not_lt.mp hc
    have h4 : ((200 : Int) : Rat) ≤ d := Rat.le_floor.mp h3
    have h5 : (200 : Rat) ≤ d := by exact_mod_cast h4
    exact absurd h.2 (not_lt.mpr h5)
  unfold doubleToUint64
  omega

theorem scanDevices_events (w : World) (l : List NetDevice) :
    (CustomApplication.scanDevices w l).events = w.events := by
  induction l with
  | nil => rfl
  | cons d rest ih =>
    unfold CustomApplication.scanDevices
    split
    · rfl
    · exact ih

theorem scanDevices_now (w : World) (l : List NetDevice) :
    (CustomApplication.scanDevices w l).now = w.now := by
  induction l with
  | nil => rfl
  | cons d rest ih =>
    unfold CustomApplication.scanDevices
    split
    · rfl
    · exact ih

theorem scanDevices_broadcast_time (w : World) (l : List NetDevice) :
    (CustomApplication.scanDevices w l).app.m_broadcast_time = w.app.m_broadcast_time := by
  induction l with
  | nil => rfl
  | cons d rest ih =>
    unfold CustomApplication.scanDevices
    split
    · rfl
    · exact ih

theorem scanDevices_node (w : World) (l : List NetDevice) :
    (CustomApplication.scanDevices w l).node = w.node := by
  induction l with
  | nil => rfl
  | cons d rest ih =>
    unfold CustomApplication.scanDevices
    split
    · rfl
    · exact ih

theorem scanDevices_sent (w : World) (l : List NetDevice) :
    (CustomApplication.scanDevices w l).sent = w.sent := by
  induction l with
  | nil => rfl
  | cons d rest ih =>
    unfold CustomApplication.scanDevices
    split
    · rfl
    · exact ih

theorem scanDevices_found (w : World) (l : List NetDevice)
    (h : ∃ d ∈ l, d.isWave = true) :
    ∃ dev, dev ∈ l ∧ dev.isWave = true ∧
      (CustomApplication.scanDevices w l).app.m_waveDevice = some dev := by
  induction l with
  | nil => simp at h
  | cons d rest ih =>
    unfold CustomApplication.scanDevices
    by_cases hd : d.isWave = true
    · rw [if_pos hd]
      exact ⟨d, List.mem_cons_self _ _, hd, rfl⟩
    · rw [if_neg hd]
      obtain ⟨x, hx, hxw⟩ := h
      rcases List.mem_cons.mp hx with hxd | hxr
      · exact absurd (hxd ▸ hxw) hd
      · obtain ⟨dev, hm, hw, he⟩ := ih ⟨x, hxr, hxw⟩
        exact ⟨dev, List.mem_cons_of_mem _ hm, hw, he⟩

theorem scanDevices_none (w : World) (l : List NetDevice)
    (h : ∀ d ∈ l, d.isWave = false) : CustomApplication.scanDevices w l = w := by
  induction l with
  | nil => rfl
  | cons d rest ih =>
    unfold CustomApplication.scanDevices
    have hd : ¬ d.isWave = true := by
      rw [h d (List.mem_cons_self _ _)]; exact Bool.false_ne_true
    rw [if_neg hd]
    exact ih (fun x hx => h x (List.mem_cons_of_mem _ hx))

theorem BroadcastInformation_done (w : World) (r : Bool) (dev : NetDevice)
    (pos : Vector3D) (hdev : w.app.m_waveDevice = some dev)
    (hmob : w.node.mobility = some pos) :
    CustomApplication.BroadcastInformation w r = .done
      { w with
        sent := w.sent ++ [
          { time := w.now, via := dev,
            packet := { size := w.app.m_packetSize,
                        tags := [{ nodeId := w.node.id, position := pos,
                                   timestamp := w.now }] },
            dest := Mac48Address.GetBroadcast, protocol := 0x88dc,
            tx := { channelNumber := CCH, priority := 7, txPowerLevel := 7,
                    dataRate := ⟨"OfdmRate6MbpsBW10MHz"⟩ },
            result := r }]
        events := w.events ++ [⟨w.now + w.app.m_broadcast_time, .BroadcastInformation⟩] } := by
  unfold CustomApplication.BroadcastInformation
  simp only [hdev, hmob]
  rfl

theorem earliest_single (e : Event) : Simulator.earliest [e] = some e := rfl

theorem step_single (w : World) (t1 : Time) (r : Bool) (dev : NetDevice)
    (pos : Vector3D) (hq : w.events = [⟨t1, .BroadcastInformation⟩])
    (hdev : w.app.m_waveDevice = some dev) (hmob : w.node.mobility = some pos) :
    Simulator.step w r = .done
      { w with
        now := t1
        sent := w.sent ++ [
          { time := t1, via := dev,
            packet := { size := w.app.m_packetSize,
                        tags := [{ nodeId := w.node.id, position := pos,
                                   timestamp := t1 }] },
            dest := Mac48Address.GetBroadcast, protocol := 0x88dc,
            tx := { channelNumber := CCH, priority := 7, txPowerLevel := 7,
                    dataRate := ⟨"OfdmRate6MbpsBW10MHz"⟩ },
            result := r }]
        events := [⟨t1 + w.app.m_broadcast_time, .BroadcastInformation⟩] } := by
  unfold Simulator.step
  rw [hq, earliest_single]
  simp only [List.erase_cons_head]
  exact BroadcastInformation_done _ r dev pos hdev hmob

theorem run_single (rs : List Bool) : ∀ (w : World) (t1 : Time) (dev : NetDevice)
    (pos : Vector3D), w.events = [⟨t1, .BroadcastInformation⟩] →
    w.app.m_waveDevice = some dev → w.node.mobility = some pos →
    ∃ w2, Simulator.run w rs = .done w2 ∧
      w2.sent.map (fun s => s.time) = w.sent.map (fun s => s.time) ++
        (List.range rs.length).map
          (fun (k : Nat) => t1 + (k : Int) * w.app.m_broadcast_time) ∧
      w2.sent.map (fun s => s.result) = w.sent.map (fun s => s.result) ++ rs ∧
      w2.events =
        [⟨t1 + (rs.length : Int) * w.app.m_broadcast_time, .BroadcastInformation⟩] ∧
      w2.app = w.app := by
  induction rs with
  | nil =>
    intro w t1 dev pos hq _ _
    refine ⟨w, rfl, ?_, ?_, ?_, rfl⟩
    · simp
    · simp
    · rw [hq]; simp
  | cons r rest ih =>
    intro w t1 dev pos hq hdev hmob
    have hstep := step_single w t1 r dev pos hq hdev hmob
    obtain ⟨w2, hrun, htimes, hres, hev, happ⟩ :=
      ih _ (t1 + w.app.m_broadcast_time) dev pos
        (show ({ w with
          now := t1
          sent := w.sent ++ [
            { time := t1, via := dev,
              packet := { size := w.app.m_packetSize,
                          tags := [{ nodeId := w.node.id, position := pos,
                                     timestamp := t1 }] },
              dest := Mac48Address.GetBroadcast, protocol := 0x88dc,
              tx := { channelNumber := CCH, priority := 7, txPowerLevel := 7,
                      dataRate := ⟨"OfdmRate6MbpsBW10MHz"⟩ },
              result := r }]
          events := [⟨t1 + w.app.m_broadcast_time, .BroadcastInformation⟩] } : World).events
            = [⟨t1 + w.app.m_broadcast_time, .BroadcastInformation⟩] from rfl)
        hdev hmob
    refine ⟨w2, ?_, ?_, ?_, ?_, happ⟩
    · show (match Simulator.step w r with
        | .done w1 => Simulator.run w1 rest
        | other => other) = _
      rw [hstep]
      exact hrun
    · have hr : (List.range (rest.length + 1)).map
            (fun (k : Nat) => t1 + (k : Int) * w.app.m_broadcast_time) =
          t1 :: (List.range rest.length).map
            (fun (k : Nat) => (t1 + w.app.m_broadcast_time) +
              (k : Int) * w.app.m_broadcast_time) := by
        rw [List.range_succ_eq_map, List.map_cons, List.map_map]
        congr 1
        · simp
        · apply List.map_congr_left
          intro k _
          simp only [Function.comp]
          push_cast
          ring
      rw [htimes, List.length_cons, hr]
      simp
    · rw [hres]
      simp
    · rw [hev]
      simp only [List.length_cons]
      push_cast
      congr 2
      ring

theorem doubleToUint64_floor (d : Rat) (h : 50 ≤ d ∧ d < 200) :
    ((doubleToUint64 d : Nat) : Rat) ≤ d ∧ d < ((doubleToUint64 d : Nat) : Rat) + 1 := by
  have h1 : (50 : Int) ≤ Rat.floor d := Rat.le_floor.mpr (by exact_mod_cast h.1)
  have h2 : Rat.floor d < 200 := by
    by_contra hc
    have h3 : (200 : Int) ≤ Rat.floor d := not_lt.mp hc
    have h4 : ((200 : Int) : Rat) ≤ d := Rat.le_floor.mp h3
    have h5 : (200 : Rat) ≤ d := by exact_mod_cast h4
    exact absurd h.2 (not_lt.mpr h5)
  have hn : ((doubleToUint64 d : Nat) : Int) = Rat.floor d := by
    unfold doubleToUint64
    omega
  have hcast : ((doubleToUint64 d : Nat) : Rat) = ((Rat.floor d : Int) : Rat) := by
    rw [← hn]; norm_cast
  rw [hcast]
  constructor
  · exact Rat.le_floor.mp (le_refl _)
  · by_contra hc
    have h3 : ((Rat.floor d + 1 : Int) : Rat) ≤ d := by
      push_cast
      exact not_lt.mp hc
    have h4 : Rat.floor d + 1 ≤ Rat.floor d := Rat.le_floor.mpr h3
    omega

theorem GetValue_bounds (u : Rat) (h : 0 ≤ u ∧ u < 1) :
    50 ≤ UniformRandomVariable.GetValue 50 200 u ∧
      UniformRandomVariable.GetValue 50 200 u < 200 := by
  unfold UniformRandomVariable.GetValue
  obtain ⟨h0, h1⟩ := h
  constructor <;> linarith

theorem wrapInt64_of_range (x : Int) (h1 : -9223372036854775808 ≤ x)
    (h2 : x ≤ 9223372036854775807) : wrapInt64 x = x := by
  unfold wrapInt64
  omega

theorem doubleToUint64_example :
    doubleToUint64 (UniformRandomVariable.GetValue 50 200 (367 / 750)) = 123 := by
  have hv : UniformRandomVariable.GetValue 50 200 (367 / 750) = 617 / 5 := by
    unfold UniformRandomVariable.GetValue
    norm_num
  rw [hv]
  unfold doubleToUint64
  have h : Rat.floor (617 / 5) = 123 := by
    rw [Rat.floor_def']
    norm_num
  rw [h]; rfl

/-- The state `exampleStarted` is the one `StartApplication` produces from
`exampleWorld` when the stream number is 367/750 (random draw 123.4). -/
theorem exampleStarted_reached :
    CustomApplication.StartApplication exampleWorld (367 / 750) = .done exampleStarted := by
  unfold CustomApplication.StartApplication
  simp only [exampleWorld, exampleNode, CustomApplication.scanDevices,
    doubleToUint64_example]
  rfl

theorem PromiscRx_parsed (w : World) (packet : Packet) (channelFreq : Nat)
    (tx : WifiTxVector) (mpdu : MpduInfo) (sn : SignalNoiseDbm) (peek : PeekHeaderResult)
    (dev : NetDevice) (hdev : w.app.m_waveDevice = some dev) (hpeek : peek.bytes ≠ 0) :
    CustomApplication.PromiscRx w packet channelFreq tx mpdu sn peek =
      if peek.hdr.addr1 = Mac48Address.GetBroadcast ∨ peek.hdr.addr1 = dev.macCCH then
        .done ({ w with log := w.log ++
            [.promiscRx w.node.id channelFreq tx.mode sn.signal sn.noise packet.size,
             .promiscFrom peek.hdr.addr2 peek.hdr.sequenceNumber] },
          some .AddressedToMe)
      else
        .done ({ w with log := w.log ++
            [.promiscRx w.node.id channelFreq tx.mode sn.signal sn.noise packet.size] },
          some .Overheard) := by
  unfold CustomApplication.PromiscRx
  simp only [hdev, WifiMacHeader.GetAddr1, WifiMacHeader.GetAddr2,
    WifiMacHeader.GetSequenceNumber, WifiTxVector.GetMode, Packet.GetSize]
  rw [if_pos hpeek]
  by_cases hc : peek.hdr.addr1 = Mac48Address.GetBroadcast ∨ peek.hdr.addr1 = dev.macCCH
  · rw [if_pos hc, if_pos hc]
    simp
  · rw [if_neg hc, if_neg hc]

/-! ## Start of the application -/

/-- C1, as stated, fails for an interval at the top of the 64-bit range. With the
interval set to the greatest time value and the random draw 123.4, the 64-bit sum
interval + jitter wraps: the one event that `StartApplication` schedules is due at
a negative time, far before start + interval + 50 µs. -/
theorem StartApplication_first_broadcast_counterexample :
    (∃ d ∈ (CustomApplication.SetBroadcastInterval exampleWorld INT64_MAX).node.devices,
      d.isWave = true) ∧
    ((0 : Rat) ≤ 367 / 750 ∧ (367 / 750 : Rat) < 1) ∧
    ∃ w1, CustomApplication.StartApplication
        (CustomApplication.SetBroadcastInterval exampleWorld INT64_MAX) (367 / 750) =
        .done w1 ∧
      w1.events = [⟨-9223372036854652809, .BroadcastInformation⟩] ∧
      ¬ (exampleWorld.now + INT64_MAX + MicroSeconds 50 ≤ -9223372036854652809) := by
  refine ⟨⟨⟨1, true, ⟨0xa1⟩⟩, by decide, rfl⟩, by norm_num,
    { exampleStarted with
      app := { exampleStarted.app with m_broadcast_time := INT64_MAX }
      events := [⟨-9223372036854652809, .BroadcastInformation⟩] },
    ?_, rfl, by decide⟩
  unfold CustomApplication.StartApplication
  simp only [exampleWorld, exampleNode, CustomApplication.SetBroadcastInterval,
    CustomApplication.scanDevices, doubleToUint64_example]
  rfl

/-- C1 (amended): for every interval I that is a 64-bit time value with
I + 199 µs not above the greatest time value, when `StartApplication` finds a
WaveNetDevice among the node's devices it returns having added exactly one pending
event, a `BroadcastInformation` due at start + I + j. The jitter j is n µs, where n
is the whole part of the single random draw 50 + u * (200 - 50), u being the
number 0 ≤ u < 1 taken from the random stream; so j lies in [50 µs, 200 µs) and the
due time t satisfies start + I + 50 µs ≤ t < start + I + 200 µs, and with the
constructor's interval of 100 ms it lies between 100.050 ms and 100.200 ms after
the start. When nothing else is pending and the node has a mobility model, the
next turn of the simulator runs that broadcast, and its send is made at t. -/
theorem StartApplication_first_broadcast (w : World) (u : Rat)
    (hfound : ∃ d ∈ w.node.devices, d.isWave = true)
    (hu : 0 ≤ u ∧ u < 1)
    (hI : INT64_MIN ≤ w.app.m_broadcast_time ∧
      w.app.m_broadcast_time + MicroSeconds 199 ≤ INT64_MAX) :
    ∃ (w1 : World) (j : Time) (n : Nat),
      CustomApplication.StartApplication w u = .done w1 ∧
      (n : Rat) ≤ 50 + u * (200 - 50) ∧ 50 + u * (200 - 50) < (n : Rat) + 1 ∧
      j = (n : Int) * 1000 ∧
      w1.events =
        w.events ++ [⟨w.now + (w.app.m_broadcast_time + j), .BroadcastInformation⟩] ∧
      MicroSeconds 50 ≤ j ∧ j < MicroSeconds 200 ∧
      w.now + w.app.m_broadcast_time + MicroSeconds 50 ≤
        w.now + (w.app.m_broadcast_time + j) ∧
      w.now + (w.app.m_broadcast_time + j) <
        w.now + w.app.m_broadcast_time + MicroSeconds 200 ∧
      (w.app.m_broadcast_time = CustomApplication.construct.m_broadcast_time →
        w.now + 100050000 ≤ w.now + (w.app.m_broadcast_time + j) ∧
        w.now + (w.app.m_broadcast_time + j) < w.now + 100200000) ∧
      (∀ (r : Bool) (pos : Vector3D), w.events = [] → w.node.mobility = some pos →
        ∃ w2 rec, Simulator.step w1 r = .done w2 ∧
          w2.sent = w.sent ++ [rec] ∧
          rec.time = w.now + (w.app.m_broadcast_time + j) ∧
          w2.now = w.now + (w.app.m_broadcast_time + j)) := by
  obtain ⟨dev, -, -, hdev⟩ := scanDevices_found w w.node.devices hfound
  have hd := GetValue_bounds u hu
  obtain ⟨hlo, hhi⟩ := doubleToUint64_bounds _ hd
  obtain ⟨hf1, hf2⟩ := doubleToUint64_floor _ hd
  have hmin : (-9223372036854775808 : Int) ≤ w.app.m_broadcast_time := hI.1
  have hmax : (w.app.m_broadcast_time : Int) + (199000 : Int) ≤
      (9223372036854775807 : Int) := hI.2
  have hj1 : MicroSeconds 50 ≤
      ((doubleToUint64 (UniformRandomVariable.GetValue 50 200 u) : Nat) : Int) * 1000 := by
    show ((50 : Nat) : Int) * 1000 ≤ _
    omega
  have hj2 : ((doubleToUint64 (UniformRandomVariable.GetValue 50 200 u) : Nat) : Int) * 1000
      < MicroSeconds 200 := by
    show _ < ((200 : Nat) : Int) * 1000
    omega
  have hplus : Time.plus w.app.m_broadcast_time
      (MicroSeconds (doubleToUint64 (UniformRandomVariable.GetValue 50 200 u))) =
      w.app.m_broadcast_time +
        ((doubleToUint64 (UniformRandomVariable.GetValue 50 200 u) : Nat) : Int) * 1000 := by
    unfold Time.plus
    apply wrapInt64_of_range
    · show (-9223372036854775808 : Int) ≤ w.app.m_broadcast_time +
        ((doubleToUint64 (UniformRandomVariable.GetValue 50 200 u) : Nat) : Int) * 1000
      omega
    · show w.app.m_broadcast_time +
        ((doubleToUint64 (UniformRandomVariable.GetValue 50 200 u) : Nat) : Int) * 1000 ≤
        (9223372036854775807 : Int)
      have hc : ((doubleToUint64 (UniformRandomVariable.GetValue 50 200 u) : Nat) : Int)
          ≤ 199 := by omega
      linarith
  have hev : (Simulator.Schedule (CustomApplication.scanDevices w w.node.devices)
      (Time.plus (CustomApplication.scanDevices w w.node.devices).app.m_broadcast_time
        (MicroSeconds (doubleToUint64 (UniformRandomVariable.GetValue 50 200 u))))
      .BroadcastInformation).events =
      w.events ++ [⟨w.now + (w.app.m_broadcast_time +
        ((doubleToUint64 (UniformRandomVariable.GetValue 50 200 u) : Nat) : Int) * 1000),
        .BroadcastInformation⟩] := by
    simp only [Simulator.Schedule, scanDevices_events, scanDevices_now,
      scanDevices_broadcast_time, hplus]
  refine ⟨Simulator.Schedule (CustomApplication.scanDevices w w.node.devices)
      (Time.plus (CustomApplication.scanDevices w w.node.devices).app.m_broadcast_time
        (MicroSeconds (doubleToUint64 (UniformRandomVariable.GetValue 50 200 u))))
      .BroadcastInformation,
    ((doubleToUint64 (UniformRandomVariable.GetValue 50 200 u) : Nat) : Int) * 1000,
    doubleToUint64 (UniformRandomVariable.GetValue 50 200 u),
    ?_, hf1, hf2, rfl, hev, hj1, hj2, ?_, ?_, ?_, ?_⟩
  · unfold CustomApplication.StartApplication
    simp only [hdev]
  · linarith
  · linarith
  · intro h100c
    have h100 : w.app.m_broadcast_time = (100000000 : Int) := by
      rw [h100c]; rfl
    have h1 : (50000 : Int) ≤
      ((doubleToUint64 (UniformRandomVariable.GetValue 50 200 u) : Nat) : Int) * 1000 := hj1
    have h2 : ((doubleToUint64 (UniformRandomVariable.GetValue 50 200 u) : Nat) : Int) * 1000
      < (200000 : Int) := hj2
    rw [h100]
    constructor <;> linarith
  · intro r pos hempty hmob
    have hq := hev
    rw [hempty, List.nil_append] at hq
    have hmob1 : (Simulator.Schedule (CustomApplication.scanDevices w w.node.devices)
        (Time.plus (CustomApplication.scanDevices w w.node.devices).app.m_broadcast_time
          (MicroSeconds (doubleToUint64 (UniformRandomVariable.GetValue 50 200 u))))
        .BroadcastInformation).node.mobility = some pos := by
      show (CustomApplication.scanDevices w w.node.devices).node.mobility = some pos
      rw [scanDevices_node]
      exact hmob
    have hstep := step_single _ _ r dev pos hq hdev hmob1
    exact ⟨_, _, hstep,
      congrArg (fun l => l ++ [_]) (scanDevices_sent w w.node.devices), rfl, rfl⟩

theorem StartApplication_first_broadcast_witness :
    (∃ d ∈ exampleWorld.node.devices, d.isWave = true) ∧
    ((0 : Rat) ≤ 367 / 750 ∧ (367 / 750 : Rat) < 1) ∧
    (INT64_MIN ≤ exampleWorld.app.m_broadcast_time ∧
      exampleWorld.app.m_broadcast_time + MicroSeconds 199 ≤ INT64_MAX) ∧
    ∃ (w1 : World) (j : Time) (n : Nat) (w2 : World) (rec : SendRecord),
      CustomApplication.StartApplication exampleWorld (367 / 750) = .done w1 ∧
      (n : Rat) ≤ 50 + 367 / 750 * (200 - 50) ∧
      50 + 367 / 750 * (200 - 50) < (n : Rat) + 1 ∧
      j = (n : Int) * 1000 ∧
      w1.events = exampleWorld.events ++
        [⟨exampleWorld.now + (exampleWorld.app.m_broadcast_time + j),
          .BroadcastInformation⟩] ∧
      w1.events = [⟨100123000, .BroadcastInformation⟩] ∧
      MicroSeconds 50 ≤ j ∧ j < MicroSeconds 200 ∧
      exampleWorld.now + 100050000 ≤
        exampleWorld.now + (exampleWorld.app.m_broadcast_time + j) ∧
      exampleWorld.now + (exampleWorld.app.m_broadcast_time + j) <
        exampleWorld.now + 100200000 ∧
      Simulator.step w1 true = .done w2 ∧
      w2.sent = exampleWorld.sent ++ [rec] ∧
      rec.time = exampleWorld.now + (exampleWorld.app.m_broadcast_time + j) := by
  have hfound : ∃ d ∈ exampleWorld.node.devices, d.isWave = true :=
    ⟨⟨1, true, ⟨0xa1⟩⟩, by decide, rfl⟩
  have hu : (0 : Rat) ≤ 367 / 750 ∧ (367 / 750 : Rat) < 1 := by norm_num
  have hI : INT64_MIN ≤ exampleWorld.app.m_broadcast_time ∧
      exampleWorld.app.m_broadcast_time + MicroSeconds 199 ≤ INT64_MAX := by decide
  obtain ⟨w1, j, n, h1, hn1, hn2, h2, h3, h4, h5, -, -, h8, h9⟩ :=
    StartApplication_first_broadcast exampleWorld (367 / 750) hfound hu hI
  obtain ⟨w2, rec, hs, hsent, htime, -⟩ := h9 true ⟨⟨1⟩, ⟨2⟩, ⟨3⟩⟩ rfl rfl
  have hw1 : w1 = exampleStarted := by
    have h := h1.symm.trans exampleStarted_reached
    cases h
    rfl
  have hconc : w1.events = [⟨100123000, .BroadcastInformation⟩] := by
    rw [hw1]; rfl
  exact ⟨hfound, hu, hI, w1, j, n, w2, rec, h1, hn1, hn2, h2, h3, hconc, h4, h5,
    (h8 rfl).1, (h8 rfl).2, hs, hsent, htime⟩

/-- C4: started on a freshly constructed application (no device held yet) whose
node has no WaveNetDevice, `StartApplication` ends in the fatal-error branch with
the state untouched: no event is scheduled, no receive callback and no sniffer is
registered, `m_waveDevice` stays null, and the call does not return normally. -/
theorem StartApplication_no_wave_device (w : World) (draw : Rat)
    (hfresh : w.app.m_waveDevice = none)
    (hnone : ∀ d ∈ w.node.devices, d.isWave = false) :
    ∃ w1, CustomApplication.StartApplication w draw = .fatal .noWaveNetDevice w1 ∧
      w1.events = w.events ∧
      w1.receiveCallbacks = w.receiveCallbacks ∧
      w1.sniffers = w.sniffers ∧
      w1.app.m_waveDevice = none ∧
      (∀ w2, CustomApplication.StartApplication w draw ≠ .done w2) ∧
      (w.events = [] → w1.events.length = 0) := by
  have hscan := scanDevices_none w w.node.devices hnone
  have hres : CustomApplication.StartApplication w draw = .fatal .noWaveNetDevice w := by
    unfold CustomApplication.StartApplication
    simp only [hscan, hfresh]
  refine ⟨w, hres, rfl, rfl, rfl, hfresh, ?_, ?_⟩
  · intro w2 h2
    rw [hres] at h2
    exact Outcome.noConfusion h2
  · intro he
    rw [he]; rfl

theorem StartApplication_no_wave_device_witness :
    exampleWorldNoWave.app.m_waveDevice = none ∧
    (∀ d ∈ exampleWorldNoWave.node.devices, d.isWave = false) ∧
    ∃ w1, CustomApplication.StartApplication exampleWorldNoWave (1 / 2) =
        .fatal .noWaveNetDevice w1 ∧
      w1.events = exampleWorldNoWave.events ∧
      w1.receiveCallbacks = exampleWorldNoWave.receiveCallbacks ∧
      w1.sniffers = exampleWorldNoWave.sniffers ∧
      w1.app.m_waveDevice = none ∧
      (∀ w2, CustomApplication.StartApplication exampleWorldNoWave (1 / 2) ≠ .done w2) ∧
      (exampleWorldNoWave.events = [] → w1.events.length = 0) :=
  ⟨rfl, by decide,
    StartApplication_no_wave_device exampleWorldNoWave (1 / 2) rfl (by decide)⟩

/-! ## Periodic broadcast -/

/-- C2: for a started application (it holds its device) on a node with a mobility
model, every execution of `BroadcastInformation` at time t returns having added
exactly one pending event, a `BroadcastInformation` due at t + interval, with no
jitter, and the queue it leaves is the same whether `SendX` answered true or false.
Hence, from a state whose pending broadcast is due at t1, running the simulator
for any number n of turns with any send results makes the k-th broadcast
(k = 0 .. n-1) at exactly t1 + k * interval, each one interval after the one
before, and leaves the next one pending at t1 + n * interval. -/
theorem BroadcastInformation_periodic (w : World) (dev : NetDevice) (pos : Vector3D)
    (hdev : w.app.m_waveDevice = some dev) (hmob : w.node.mobility = some pos) :
    (∀ r : Bool, ∃ w1, CustomApplication.BroadcastInformation w r = .done w1 ∧
      w1.events =
        w.events ++ [⟨w.now + w.app.m_broadcast_time, .BroadcastInformation⟩] ∧
      w1.app = w.app ∧ w1.now = w.now) ∧
    (∀ w1 w2, CustomApplication.BroadcastInformation w true = .done w1 →
      CustomApplication.BroadcastInformation w false = .done w2 →
      w1.events = w2.events) ∧
    (∀ (t1 : Time) (rs : List Bool), w.events = [⟨t1, .BroadcastInformation⟩] →
      ∃ w2, Simulator.run w rs = .done w2 ∧
        w2.sent.map (fun s => s.time) = w.sent.map (fun s => s.time) ++
          (List.range rs.length).map
            (fun (k : Nat) => t1 + (k : Int) * w.app.m_broadcast_time) ∧
        w2.sent.map (fun s => s.result) = w.sent.map (fun s => s.result) ++ rs ∧
        w2.events =
          [⟨t1 + (rs.length : Int) * w.app.m_broadcast_time, .BroadcastInformation⟩]) := by
  refine ⟨?_, ?_, ?_⟩
  · intro r
    exact ⟨_, BroadcastInformation_done w r dev pos hdev hmob, rfl, rfl, rfl⟩
  · intro w1 w2 h1 h2
    rw [BroadcastInformation_done w true dev pos hdev hmob] at h1
    rw [BroadcastInformation_done w false dev pos hdev hmob] at h2
    cases h1
    cases h2
    rfl
  · intro t1 rs hq
    obtain ⟨w2, hrun, ht, hr, he, -⟩ := run_single rs w t1 dev pos hq hdev hmob
    exact ⟨w2, hrun, ht, hr, he⟩

theorem BroadcastInformation_periodic_witness :
    ∃ w2, Simulator.run exampleStarted [true, false, true] = .done w2 ∧
      w2.sent.map (fun s => s.time) = exampleStarted.sent.map (fun s => s.time) ++
        (List.range [true, false, true].length).map
          (fun (k : Nat) => 100123000 + (k : Int) * exampleStarted.app.m_broadcast_time) ∧
      w2.sent.map (fun s => s.result) =
        exampleStarted.sent.map (fun s => s.result) ++ [true, false, true] ∧
      w2.events =
        [⟨100123000 + ([true, false, true].length : Int) *
          exampleStarted.app.m_broadcast_time, .BroadcastInformation⟩] :=
  (BroadcastInformation_periodic exampleStarted ⟨1, true, ⟨0xa1⟩⟩ ⟨⟨1⟩, ⟨2⟩, ⟨3⟩⟩ rfl rfl).2.2
    100123000 [true, false, true] rfl

/-- C3, as stated, fails: start the example application (first broadcast due at
100.123 ms), call `StopApplication` at 50 ms, and let the simulator take its next
turn: `BroadcastInformation` runs at 100.123 ms, after the stop, makes a send and
schedules another broadcast for 200.123 ms. -/
theorem StopApplication_cancels_counterexample :
    ∃ w1 w2,
      CustomApplication.StartApplication exampleWorld (367 / 750) = .done exampleStarted ∧
      CustomApplication.StopApplication { exampleStarted with now := MilliSeconds 50 } =
        .done w1 ∧
      w1.sent = [] ∧
      Simulator.step w1 true = .done w2 ∧
      w2.now = 100123000 ∧ MilliSeconds 50 < w2.now ∧
      w2.sent.length = 1 ∧
      w2.events = [⟨200123000, .BroadcastInformation⟩] :=
  ⟨_, _, exampleStarted_reached, rfl, rfl, rfl, rfl, by decide, rfl, rfl⟩

/-- C3 (amended): stopping does not cancel the pending broadcast.
`StopApplication` returns with the state unchanged, so every pending event stays in
the queue; and when the pending `BroadcastInformation` of a started application
comes due after the stop, at time t1, the simulator runs it: exactly one more send
is made, at t1, and the next broadcast is scheduled for t1 + interval. -/
theorem StopApplication_keeps_pending_broadcast (w : World) (t1 : Time) (r : Bool)
    (dev : NetDevice) (pos : Vector3D)
    (hq : w.events = [⟨t1, .BroadcastInformation⟩])
    (hdev : w.app.m_waveDevice = some dev) (hmob : w.node.mobility = some pos) :
    ∃ w1 w2 rec, CustomApplication.StopApplication w = .done w1 ∧
      w1 = w ∧ w1.events = [⟨t1, .BroadcastInformation⟩] ∧
      Simulator.step w1 r = .done w2 ∧
      w2.now = t1 ∧
      w2.sent = w.sent ++ [rec] ∧ rec.time = t1 ∧
      w2.events = [⟨t1 + w.app.m_broadcast_time, .BroadcastInformation⟩] :=
  ⟨w, _, _, rfl, rfl, hq, step_single w t1 r dev pos hq hdev hmob, rfl, rfl, rfl, rfl⟩

theorem StopApplication_keeps_pending_broadcast_witness :
    ∃ w1 w2 rec,
      CustomApplication.StopApplication { exampleStarted with now := MilliSeconds 50 } =
        .done w1 ∧
      w1 = { exampleStarted with now := MilliSeconds 50 } ∧
      w1.events = [⟨100123000, .BroadcastInformation⟩] ∧
      Simulator.step w1 false = .done w2 ∧
      w2.now = 100123000 ∧
      w2.sent = ({ exampleStarted with now := MilliSeconds 50 } : World).sent ++ [rec] ∧
      rec.time = 100123000 ∧
      w2.events =
        [⟨100123000 +
          ({ exampleStarted with now := MilliSeconds 50 } : World).app.m_broadcast_time,
          .BroadcastInformation⟩] :=
  StopApplication_keeps_pending_broadcast { exampleStarted with now := MilliSeconds 50 }
    100123000 false ⟨1, true, ⟨0xa1⟩⟩ ⟨⟨1⟩, ⟨2⟩, ⟨3⟩⟩ rfl rfl rfl

/-! ## The frame that is sent -/

/-- C8: for a started application on a node with a mobility model, every execution
of `BroadcastInformation` returns having made exactly one `SendX` call, whatever
the state and whatever the call answers (a false answer adds no second call). The
call goes through the held device to the broadcast address, with a payload of
`m_packetSize` bytes (1000 as constructed), protocol 0x88dc, channel CCH,
priority 7, power level 7 and data rate OfdmRate6MbpsBW10MHz. -/
theorem BroadcastInformation_one_send (w : World) (r : Bool) (dev : NetDevice)
    (pos : Vector3D) (hdev : w.app.m_waveDevice = some dev)
    (hmob : w.node.mobility = some pos) :
    ∃ w1 rec, CustomApplication.BroadcastInformation w r = .done w1 ∧
      w1.sent = w.sent ++ [rec] ∧
      rec.via = dev ∧
      rec.dest = Mac48Address.GetBroadcast ∧
      rec.packet.size = w.app.m_packetSize ∧
      rec.protocol = 0x88dc ∧
      rec.tx.channelNumber = CCH ∧
      rec.tx.priority = 7 ∧
      rec.tx.txPowerLevel = 7 ∧
      rec.tx.dataRate = ⟨"OfdmRate6MbpsBW10MHz"⟩ ∧
      rec.result = r ∧
      (w.app.m_packetSize = CustomApplication.construct.m_packetSize →
        rec.packet.size = 1000) :=
  ⟨_, _, BroadcastInformation_done w r dev pos hdev hmob, rfl, rfl, rfl, rfl, rfl, rfl,
    rfl, rfl, rfl, rfl, fun h => h⟩

theorem BroadcastInformation_one_send_witness :
    ∃ w1 rec, CustomApplication.BroadcastInformation exampleStarted false = .done w1 ∧
      w1.sent = exampleStarted.sent ++ [rec] ∧
      rec.via = ⟨1, true, ⟨0xa1⟩⟩ ∧
      rec.dest = Mac48Address.GetBroadcast ∧
      rec.packet.size = exampleStarted.app.m_packetSize ∧
      rec.protocol = 0x88dc ∧
      rec.tx.channelNumber = CCH ∧
      rec.tx.priority = 7 ∧
      rec.tx.txPowerLevel = 7 ∧
      rec.tx.dataRate = ⟨"OfdmRate6MbpsBW10MHz"⟩ ∧
      rec.result = false ∧
      (exampleStarted.app.m_packetSize = CustomApplication.construct.m_packetSize →
        rec.packet.size = 1000) :=
  BroadcastInformation_one_send exampleStarted false ⟨1, true, ⟨0xa1⟩⟩ ⟨⟨1⟩, ⟨2⟩, ⟨3⟩⟩
    rfl rfl

/-- C9: for a started application on a node with a mobility model, the packet
handed to `SendX` by an execution of `BroadcastInformation` at time t is the
freshly created packet with one tag added and nothing else done to it; it carries
exactly that one tag, whose node id is the id of the sending node, whose position
is the position the mobility model reported in this execution, and whose timestamp
is t, the time of the send. -/
theorem BroadcastInformation_tag (w : World) (r : Bool) (dev : NetDevice)
    (pos : Vector3D) (hdev : w.app.m_waveDevice = some dev)
    (hmob : w.node.mobility = some pos) :
    ∃ w1 rec tag, CustomApplication.BroadcastInformation w r = .done w1 ∧
      w1.sent = w.sent ++ [rec] ∧
      rec.packet = (Packet.Create w.app.m_packetSize).AddPacketTag tag ∧
      rec.packet.tags = [tag] ∧
      rec.packet.PeekPacketTag = some tag ∧
      tag.GetNodeId = w.node.id ∧
      tag.GetPosition = pos ∧
      tag.GetTimestamp = w.now ∧
      rec.time = w.now :=
  ⟨_, _, _, BroadcastInformation_done w r dev pos hdev hmob, rfl, rfl, rfl, rfl, rfl,
    rfl, rfl, rfl⟩

theorem BroadcastInformation_tag_witness :
    ∃ w1 rec tag, CustomApplication.BroadcastInformation exampleStarted true = .done w1 ∧
      w1.sent = exampleStarted.sent ++ [rec] ∧
      rec.packet = (Packet.Create exampleStarted.app.m_packetSize).AddPacketTag tag ∧
      rec.packet.tags = [tag] ∧
      rec.packet.PeekPacketTag = some tag ∧
      tag.GetNodeId = exampleStarted.node.id ∧
      tag.GetPosition = ⟨⟨1⟩, ⟨2⟩, ⟨3⟩⟩ ∧
      tag.GetTimestamp = exampleStarted.now ∧
      rec.time = exampleStarted.now :=
  BroadcastInformation_tag exampleStarted true ⟨1, true, ⟨0xa1⟩⟩ ⟨⟨1⟩, ⟨2⟩, ⟨3⟩⟩ rfl rfl

/-! ## Reception -/

/-- C5: in a started application, for every frame whose header was read
(`PeekHeader` deserialized at least one byte), `PromiscRx` returns having taken
exactly one arm of its address test: the arm AddressedToMe if and only if the
destination is the broadcast address or the address of the own MAC, the arm
Overheard if and only if it is neither; and any other frame with the same
destination, whatever its source, sequence number, size, channel and signal data,
and whatever the rest of the state of a node with the same own address, takes the
same arm. -/
theorem PromiscRx_classification (w : World) (packet : Packet) (channelFreq : Nat)
    (tx : WifiTxVector) (mpdu : MpduInfo) (sn : SignalNoiseDbm) (peek : PeekHeaderResult)
    (dev : NetDevice) (hdev : w.app.m_waveDevice = some dev) (hpeek : peek.bytes ≠ 0) :
    ∃ w1 c, CustomApplication.PromiscRx w packet channelFreq tx mpdu sn peek =
        .done (w1, some c) ∧
      (c = .AddressedToMe ∨ c = .Overheard) ∧
      ¬ (c = .AddressedToMe ∧ c = .Overheard) ∧
      (c = .AddressedToMe ↔
        (peek.hdr.addr1 = Mac48Address.GetBroadcast ∨ peek.hdr.addr1 = dev.macCCH)) ∧
      (c = .Overheard ↔
        ¬ (peek.hdr.addr1 = Mac48Address.GetBroadcast ∨ peek.hdr.addr1 = dev.macCCH)) ∧
      (∀ (w0 : World) (dev0 : NetDevice) (packet2 : Packet) (channelFreq2 : Nat)
          (tx2 : WifiTxVector) (mpdu2 : MpduInfo) (sn2 : SignalNoiseDbm)
          (peek2 : PeekHeaderResult),
        w0.app.m_waveDevice = some dev0 → dev0.macCCH = dev.macCCH →
        peek2.bytes ≠ 0 → peek2.hdr.addr1 = peek.hdr.addr1 →
        ∃ w2, CustomApplication.PromiscRx w0 packet2 channelFreq2 tx2 mpdu2 sn2 peek2 =
          .done (w2, some c)) := by
  have hmain := PromiscRx_parsed w packet channelFreq tx mpdu sn peek dev hdev hpeek
  by_cases hc : peek.hdr.addr1 = Mac48Address.GetBroadcast ∨ peek.hdr.addr1 = dev.macCCH
  · rw [if_pos hc] at hmain
    refine ⟨_, .AddressedToMe, hmain, Or.inl rfl, ?_, ?_, ?_, ?_⟩
    · intro h; exact FrameClass.noConfusion h.2
    · exact ⟨fun _ => hc, fun _ => rfl⟩
    · exact ⟨fun h => FrameClass.noConfusion h, fun h => absurd hc h⟩
    · intro w0 dev0 packet2 channelFreq2 tx2 mpdu2 sn2 peek2 hd0 hm0 hp2 ha2
      have h2 := PromiscRx_parsed w0 packet2 channelFreq2 tx2 mpdu2 sn2 peek2 dev0 hd0 hp2
      rw [ha2, hm0, if_pos hc] at h2
      exact ⟨_, h2⟩
  · rw [if_neg hc] at hmain
    refine ⟨_, .Overheard, hmain, Or.inr rfl, ?_, ?_, ?_, ?_⟩
    · intro h; exact FrameClass.noConfusion h.1
    · exact ⟨fun h => FrameClass.noConfusion h, fun h => absurd h hc⟩
    · exact ⟨fun _ => hc, fun _ => rfl⟩
    · intro w0 dev0 packet2 channelFreq2 tx2 mpdu2 sn2 peek2 hd0 hm0 hp2 ha2
      have h2 := PromiscRx_parsed w0 packet2 channelFreq2 tx2 mpdu2 sn2 peek2 dev0 hd0 hp2
      rw [ha2, hm0, if_neg hc] at h2
      exact ⟨_, h2⟩

theorem PromiscRx_classification_witness :
    exampleStarted.app.m_waveDevice = some ⟨1, true, ⟨0xa1⟩⟩ ∧
    exampleOverheardHeader.bytes ≠ 0 ∧
    ∃ w1 c, CustomApplication.PromiscRx exampleStarted exampleFrame 5890 exampleTxVector
        exampleMpdu exampleSignalNoise exampleOverheardHeader = .done (w1, some c) ∧
      (c = .AddressedToMe ∨ c = .Overheard) ∧
      ¬ (c = .AddressedToMe ∧ c = .Overheard) ∧
      (c = .AddressedToMe ↔
        (exampleOverheardHeader.hdr.addr1 = Mac48Address.GetBroadcast ∨
          exampleOverheardHeader.hdr.addr1 = (⟨1, true, ⟨0xa1⟩⟩ : NetDevice).macCCH)) ∧
      (c = .Overheard ↔
        ¬ (exampleOverheardHeader.hdr.addr1 = Mac48Address.GetBroadcast ∨
          exampleOverheardHeader.hdr.addr1 = (⟨1, true, ⟨0xa1⟩⟩ : NetDevice).macCCH)) ∧
      (∀ (w0 : World) (dev0 : NetDevice) (packet2 : Packet) (channelFreq2 : Nat)
          (tx2 : WifiTxVector) (mpdu2 : MpduInfo) (sn2 : SignalNoiseDbm)
          (peek2 : PeekHeaderResult),
        w0.app.m_waveDevice = some dev0 →
        dev0.macCCH = (⟨1, true, ⟨0xa1⟩⟩ : NetDevice).macCCH →
        peek2.bytes ≠ 0 → peek2.hdr.addr1 = exampleOverheardHeader.hdr.addr1 →
        ∃ w2, CustomApplication.PromiscRx w0 packet2 channelFreq2 tx2 mpdu2
          sn2 peek2 = .done (w2, some c)) :=
  ⟨rfl, by decide,
    PromiscRx_classification exampleStarted exampleFrame 5890 exampleTxVector exampleMpdu
      exampleSignalNoise exampleOverheardHeader ⟨1, true, ⟨0xa1⟩⟩ rfl (by decide)⟩

/-- C6, as stated, fails: a frame whose header could not be read still makes
`PromiscRx` write a line, the one it writes before looking at the header. -/
theorem PromiscRx_unread_header_counterexample :
    ∃ w1, CustomApplication.PromiscRx exampleStarted exampleFrame 5890 exampleTxVector
        exampleMpdu exampleSignalNoise exampleUnreadHeader = .done (w1, none) ∧
      w1.log = [.promiscRx 7 5890 ⟨"OfdmRate6MbpsBW10MHz"⟩ ⟨11⟩ ⟨12⟩ 1038] ∧
      w1.log ≠ exampleStarted.log :=
  ⟨_, rfl, rfl, by decide⟩

/-- C6 (amended): for every frame whose header could not be read (`PeekHeader`
deserialized no byte), in every state, `PromiscRx` returns normally, without
raising an error and without reaching the address test; it writes exactly one
line, the unconditional one with the node id, channel frequency, mode, signal,
noise and size, no line derived from the header, and changes nothing else. -/
theorem PromiscRx_unread_header (w : World) (packet : Packet) (channelFreq : Nat)
    (tx : WifiTxVector) (mpdu : MpduInfo) (sn : SignalNoiseDbm) (peek : PeekHeaderResult)
    (hpeek : peek.bytes = 0) :
    CustomApplication.PromiscRx w packet channelFreq tx mpdu sn peek =
      .done ({ w with log := w.log ++
          [.promiscRx w.node.id channelFreq tx.mode sn.signal sn.noise packet.size] },
        none) := by
  unfold CustomApplication.PromiscRx
  simp only [hpeek, ne_eq, not_true_eq_false, if_false]
  rfl

theorem PromiscRx_unread_header_witness :
    exampleUnreadHeader.bytes = 0 ∧
    CustomApplication.PromiscRx exampleWorld exampleFrame 5890 exampleTxVector
        exampleMpdu exampleSignalNoise exampleUnreadHeader =
      .done ({ exampleWorld with log := exampleWorld.log ++
          [.promiscRx exampleWorld.node.id 5890 exampleTxVector.mode
            exampleSignalNoise.signal exampleSignalNoise.noise exampleFrame.size] },
        none) :=
  ⟨rfl, PromiscRx_unread_header exampleWorld exampleFrame 5890 exampleTxVector
    exampleMpdu exampleSignalNoise exampleUnreadHeader rfl⟩

/-- C7, as stated, fails: a frame whose header was read and whose destination is
neither the broadcast address nor the own address takes the arm Overheard, and
`PromiscRx` writes only its first line for it; no line carries the sequence number
42 or the source address b2 of the frame. -/
theorem PromiscRx_overheard_counterexample :
    ∃ w1, CustomApplication.PromiscRx exampleStarted exampleFrame 5890 exampleTxVector
        exampleMpdu exampleSignalNoise exampleOverheardHeader =
        .done (w1, some .Overheard) ∧
      w1.log = [.promiscRx 7 5890 ⟨"OfdmRate6MbpsBW10MHz"⟩ ⟨11⟩ ⟨12⟩ 1038] ∧
      LogLine.promiscFrom ⟨0xb2⟩ 42 ∉ w1.log :=
  ⟨_, rfl, rfl, by decide⟩

/-- C7 (amended): in a started application, for every frame whose header was read,
`PromiscRx` returns having changed only the log. It always writes the line with
the node id, channel frequency, mode, signal, noise and size. The line with the
source address and the sequence number of the header is written exactly for a
frame that takes the arm AddressedToMe (destination broadcast or own address); for
a frame that takes the arm Overheard nothing more is written. -/
theorem PromiscRx_observation (w : World) (packet : Packet) (channelFreq : Nat)
    (tx : WifiTxVector) (mpdu : MpduInfo) (sn : SignalNoiseDbm) (peek : PeekHeaderResult)
    (dev : NetDevice) (hdev : w.app.m_waveDevice = some dev) (hpeek : peek.bytes ≠ 0) :
    ∃ w1 c, CustomApplication.PromiscRx w packet channelFreq tx mpdu sn peek =
        .done (w1, some c) ∧
      w1 = { w with log := w1.log } ∧
      (c = .AddressedToMe ↔
        (peek.hdr.addr1 = Mac48Address.GetBroadcast ∨ peek.hdr.addr1 = dev.macCCH)) ∧
      (c = .AddressedToMe → w1.log = w.log ++
        [.promiscRx w.node.id channelFreq tx.mode sn.signal sn.noise packet.size,
         .promiscFrom peek.hdr.addr2 peek.hdr.sequenceNumber]) ∧
      (c = .Overheard → w1.log = w.log ++
        [.promiscRx w.node.id channelFreq tx.mode sn.signal sn.noise packet.size]) := by
  have hmain := PromiscRx_parsed w packet channelFreq tx mpdu sn peek dev hdev hpeek
  by_cases hc : peek.hdr.addr1 = Mac48Address.GetBroadcast ∨ peek.hdr.addr1 = dev.macCCH
  · rw [if_pos hc] at hmain
    exact ⟨_, .AddressedToMe, hmain, rfl, ⟨fun _ => hc, fun _ => rfl⟩, fun _ => rfl,
      fun h => FrameClass.noConfusion h⟩
  · rw [if_neg hc] at hmain
    exact ⟨_, .Overheard, hmain, rfl,
      ⟨fun h => FrameClass.noConfusion h, fun h => absurd h hc⟩,
      fun h => FrameClass.noConfusion h, fun _ => rfl⟩

theorem PromiscRx_observation_witness :
    ∃ w1 c, CustomApplication.PromiscRx exampleStarted exampleFrame 5890 exampleTxVector
        exampleMpdu exampleSignalNoise
        { exampleOverheardHeader with hdr := ⟨⟨0xa1⟩, ⟨0xb2⟩, 43⟩ } = .done (w1, some c) ∧
      w1 = { exampleStarted with log := w1.log } ∧
      (c = .AddressedToMe ↔
        ((⟨0xa1⟩ : Mac48Address) = Mac48Address.GetBroadcast ∨
          (⟨0xa1⟩ : Mac48Address) = (⟨1, true, ⟨0xa1⟩⟩ : NetDevice).macCCH)) ∧
      (c = .AddressedToMe → w1.log = exampleStarted.log ++
        [.promiscRx exampleStarted.node.id 5890 exampleTxVector.mode
          exampleSignalNoise.signal exampleSignalNoise.noise exampleFrame.size,
         .promiscFrom ⟨0xb2⟩ 43]) ∧
      (c = .Overheard → w1.log = exampleStarted.log ++
        [.promiscRx exampleStarted.node.id 5890 exampleTxVector.mode
          exampleSignalNoise.signal exampleSignalNoise.noise exampleFrame.size]) :=
  PromiscRx_observation exampleStarted exampleFrame 5890 exampleTxVector exampleMpdu
    exampleSignalNoise { exampleOverheardHeader with hdr := ⟨⟨0xa1⟩, ⟨0xb2⟩, 43⟩ }
    ⟨1, true, ⟨0xa1⟩⟩ rfl (by decide)

end ns3
